import Mathlib

/-!
Verification of the opencode desktop sidecar supervisor
(packages/desktop/src-tauri/src: cli.rs, lib.rs, server.rs).

The Rust sources are shallowly embedded: byte buffers are `List Nat`,
fallible operations return `Option`/`Except`, channel and task
interactions become explicit state machines stepped by an action list
(the scheduler choice sequence), and external effects (HTTP requests,
dialogs, uuid generation, the settings store) are oracle parameters
supplied through environment records.
-/

deriving instance DecidableEq for Except

namespace Opencode

/-! ## Rust string primitives

Models of the `str`/`char` library functions used by cli.rs and
server.rs: `str::from_utf8`, `str::trim`, `u8::from_str`,
`eq_ignore_ascii_case`. -/

/-- Model of a UTF-8 continuation byte test (`0x80..=0xBF`). -/
def isUtf8Cont (b : Nat) : Bool := 0x80 ≤ b && b < 0xC0

/-- Model of `std::str::from_utf8` validation and decoding, returning the
decoded characters or `none` on invalid UTF-8 (continuation errors,
overlong forms, surrogates, values above U+10FFFF). -/
def utf8Decode : List Nat → Option (List Char)
  | [] => some []
  | b :: bs =>
    if b < 0x80 then
      (utf8Decode bs).map (fun cs => Char.ofNat b :: cs)
    else if b < 0xC2 then
      none
    else if b < 0xE0 then
      match bs with
      | b2 :: bs2 =>
        if isUtf8Cont b2 then
          (utf8Decode bs2).map (fun cs => Char.ofNat ((b - 0xC0) * 0x40 + (b2 - 0x80)) :: cs)
        else none
      | [] => none
    else if b < 0xF0 then
      match bs with
      | b2 :: b3 :: bs3 =>
        let lo2 := if b = 0xE0 then 0xA0 else 0x80
        let hi2 := if b = 0xED then 0xA0 else 0xC0
        if (lo2 ≤ b2 && b2 < hi2) && isUtf8Cont b3 then
          (utf8Decode bs3).map (fun cs =>
            Char.ofNat ((b - 0xE0) * 0x1000 + (b2 - 0x80) * 0x40 + (b3 - 0x80)) :: cs)
        else none
      | _ => none
    else if b < 0xF5 then
      match bs with
      | b2 :: b3 :: b4 :: bs4 =>
        let lo2 := if b = 0xF0 then 0x90 else 0x80
        let hi2 := if b = 0xF4 then 0x90 else 0xC0
        if ((lo2 ≤ b2 && b2 < hi2) && isUtf8Cont b3) && isUtf8Cont b4 then
          (utf8Decode bs4).map (fun cs =>
            Char.ofNat
              ((b - 0xF0) * 0x40000 + (b2 - 0x80) * 0x1000 + (b3 - 0x80) * 0x40 + (b4 - 0x80)) :: cs)
        else none
      | _ => none
    else none

/-- `str::from_utf8` producing a `String`. -/
def utf8DecodeString (bytes : List Nat) : Option String :=
  (utf8Decode bytes).map (fun cs => String.mk cs)

/-- UTF-8 bytes of an ASCII string (used to build concrete stdout lines;
`String::into_bytes` for ASCII content). -/
def asciiBytes (s : String) : List Nat := s.data.map Char.toNat

/-- Model of Rust `char::is_whitespace` (the Unicode `White_Space` property). -/
def rustIsWhitespace (c : Char) : Bool :=
  let n := c.toNat
  (0x9 ≤ n && n ≤ 0xD) || n == 0x20 || n == 0x85 || n == 0xA0 || n == 0x1680 ||
    (0x2000 ≤ n && n ≤ 0x200A) || n == 0x2028 || n == 0x2029 || n == 0x202F ||
    n == 0x205F || n == 0x3000

/-- Model of `str::trim`: strip Unicode whitespace from both ends. -/
def rustTrim (s : String) : String :=
  String.mk (((s.data.dropWhile rustIsWhitespace).reverse.dropWhile rustIsWhitespace).reverse)

/-- Model of `u8::from_str` (`s.parse::<u8>()`): an optional leading `+`,
then one or more ASCII digits, value at most 255; anything else is an
error (`none`). -/
def parseU8 (s : String) : Option Nat :=
  let cs :=
    match s.data with
    | '+' :: rest => rest
    | cs => cs
  if cs.isEmpty then none
  else if cs.all (fun c => '0' ≤ c && c ≤ '9') then
    let v := cs.foldl (fun acc c => acc * 10 + (c.toNat - 48)) 0
    if v ≤ 255 then some v else none
  else none

/-- Model of `u8::eq_ignore_ascii_case` lowering. -/
def asciiLower (c : Char) : Char :=
  if 'A' ≤ c && c ≤ 'Z' then Char.ofNat (c.toNat + 32) else c

/-- Model of `str::eq_ignore_ascii_case`. -/
def eqIgnoreAsciiCase (a b : String) : Bool :=
  a.data.map asciiLower == b.data.map asciiLower

/-- Model of `str::contains` with a `char` pattern. -/
def strContainsChar (s : String) (c : Char) : Bool :=
  s.data.any (fun x => x == c)

/-- Model of `str::starts_with` with a `char` pattern. -/
def strStartsWithChar (s : String) (c : Char) : Bool :=
  match s.data with
  | [] => false
  | x :: _ => x == c

/-! ## cli.rs: CommandEvent and the sqlite-migration stream interceptor -/

/-- cli.rs `TerminatedPayload`: platform exit code and signal. -/
structure TerminatedPayload where
  code : Option Int
  signal : Option Int
deriving DecidableEq

/-- cli.rs `CommandEvent`: the items of the multiplexed process event
stream. Line payloads are raw bytes (`Vec<u8>`). -/
inductive CommandEvent where
  | Stdout (bytes : List Nat)
  | Stderr (bytes : List Nat)
  | Error (msg : String)
  | Terminated (payload : TerminatedPayload)
deriving DecidableEq

/-- cli.rs `sqlite_migration::SqliteMigrationProgress`. -/
inductive SqliteMigrationProgress where
  | InProgress (percent : Nat)
  | Done
deriving DecidableEq

/-- The reserved stdout protocol tag of the migration interceptor. -/
def migTag : String := "sqlite-migration:"

/-- Model of `s.strip_prefix("sqlite-migration:")`. -/
def stripMigTag (s : String) : Option String :=
  if migTag.data.isPrefixOf s.data then some (String.mk (s.data.drop migTag.data.length))
  else none

/-- One step of cli.rs `sqlite_migration::logs_middleware`'s `filter_map`
closure: given the `done` flag and one incoming event, produce the new
flag, the optionally forwarded event, and the emitted
`SqliteMigrationProgress` notifications (the `emit(&app)` side channel). -/
def logsStep (done : Bool) (event : CommandEvent) :
    Bool × Option CommandEvent × List SqliteMigrationProgress :=
  if done then (done, some event, [])
  else
    match event with
    | CommandEvent.Stdout stdout =>
      match utf8DecodeString stdout with
      | none => (done, none, [])
      | some str =>
        match (stripMigTag str).map rustTrim with
        | some s =>
          match parseU8 s with
          | some progress => (done, none, [SqliteMigrationProgress.InProgress progress])
          | none =>
            if s = "done" then (true, none, [SqliteMigrationProgress.Done])
            else (done, none, [])
        | none => (done, some event, [])
    | _ => (done, some event, [])

/-- cli.rs `logs_middleware` run over a finite list of stream items,
threading the `done` flag: returns the final flag, the forwarded
downstream stream, and the emitted notifications in order. -/
def logsRun (done : Bool) (events : List CommandEvent) :
    Bool × List CommandEvent × List SqliteMigrationProgress :=
  match events with
  | [] => (done, [], [])
  | e :: rest =>
    let r1 := logsStep done e
    let r2 := logsRun r1.1 rest
    (r2.1, r1.2.1.toList ++ r2.2.1, r1.2.2 ++ r2.2.2)

/-- An event passes through `logs_middleware` untouched in the not-done
state: any non-stdout event, and any stdout line (valid UTF-8, as all
lines produced by the `BufReader::lines` readers are) that does not
begin with the reserved `sqlite-migration:` tag. -/
def passesThrough (event : CommandEvent) : Bool :=
  match event with
  | CommandEvent.Stdout bytes =>
    match utf8DecodeString bytes with
    | some s => (stripMigTag s).isNone
    | none => false
  | _ => true

/-! ## cli.rs: the kill channel and `CommandChild::kill`

`spawn_command` creates `mpsc::channel(1)` for kill requests
(cli.rs:343) and hands the sender to `CommandChild`. `kill()` calls
`try_send(())` and maps any `TrySendError` into an `io::Error`
(cli.rs:55-59). The channel is modelled by its buffer occupancy. -/

/-- State of a tokio bounded mpsc channel carrying `()` messages. -/
structure KillChannel where
  capacity : Nat
  pending : Nat
  closed : Bool
deriving DecidableEq

/-- The kill channel created by `spawn_command`: `mpsc::channel(1)`. -/
def killChannelNew : KillChannel := { capacity := 1, pending := 0, closed := false }

/-- Model of `mpsc::Sender::try_send(())`, with the `Display` strings of
tokio's `TrySendError` (`"no available capacity"` for full,
`"channel closed"` for closed). -/
def trySendKill (c : KillChannel) : KillChannel × Except String Unit :=
  if c.closed then (c, Except.error "channel closed")
  else if c.pending < c.capacity then
    ({ c with pending := c.pending + 1 }, Except.ok ())
  else (c, Except.error "no available capacity")

/-- cli.rs `CommandChild`; the Rust field holding the kill sender is
named `kill`, modelled here as the channel state `killTx`. -/
structure CommandChild where
  killTx : KillChannel
deriving DecidableEq

/-- Model of `CommandChild::kill`: `self.kill.try_send(()).map_err(...)`.
Returns the updated channel state together with the `io::Result<()>`. -/
def CommandChild.kill (c : CommandChild) : CommandChild × Except String Unit :=
  let r := trySendKill c.killTx
  ({ killTx := r.1 }, r.2)

/-- Operations touching the kill channel: a kill request
(`try_send` by `CommandChild::kill`) or a receive by the supervising
task (`kill_rx.recv()` in the `spawn_command` wait loop). -/
inductive KillOp where
  | request
  | receive
deriving DecidableEq

/-- Apply one kill-channel operation. -/
def killOpApply (c : KillChannel) : KillOp → KillChannel
  | KillOp.request => (trySendKill c).1
  | KillOp.receive => if 0 < c.pending then { c with pending := c.pending - 1 } else c

/-- Run a sequence of kill-channel operations. -/
def killOpsRun (c : KillChannel) (ops : List KillOp) : KillChannel :=
  ops.foldl killOpApply c

/-! ## cli.rs: the `spawn_command` task ensemble as an interleaved state machine

`spawn_command` (cli.rs:339-399) spawns three tasks feeding one
`mpsc::channel(256)`: a stdout line reader, a stderr line reader, and a
supervising task that polls `try_wait` and, once the process has
exited (or waiting errored), sends exactly one `Terminated` (or
`Error`) event and ends. The tasks are independent; a scheduler action
list decides the interleaving. Process exit is an environment action
(natural exit or the effect of a kill). -/

/-- Joint state of the pipes, the process, the three tasks and the
multiplexed event channel of `spawn_command`. `procStatus` is the
outcome `try_wait` observes once the process is gone: `Except.ok`
carries the `TerminatedPayload`, `Except.error` a wait error. -/
structure SupervisorState where
  stdoutBuf : List (List Nat)
  stderrBuf : List (List Nat)
  procStatus : Option (Except String TerminatedPayload)
  stdoutEof : Bool
  stderrEof : Bool
  waitDone : Bool
  events : List CommandEvent
deriving DecidableEq

/-- Initial supervisor state for a process that will write the given
stdout and stderr lines. -/
def supStart (outLines errLines : List (List Nat)) : SupervisorState :=
  { stdoutBuf := outLines, stderrBuf := errLines, procStatus := none,
    stdoutEof := false, stderrEof := false, waitDone := false, events := [] }

/-- Scheduler actions: the process exits (with a wait outcome), one of
the two line readers runs one loop iteration, or the supervising task
runs one poll iteration. -/
inductive SupAct where
  | procExit (status : Except String TerminatedPayload)
  | stdoutRead
  | stderrRead
  | waitPoll
deriving DecidableEq

/-- One scheduler step. A reader forwards the next buffered line, or at
end of pipe (process exited, buffer drained) finishes; while the
process lives an empty buffer blocks the reader. The supervising task's
poll emits the single terminal event once `try_wait` reports an
outcome, then the task is done; before that the poll iteration only
sleeps (or forwards a kill, which affects the process, not the
channel). -/
def supStep (s : SupervisorState) (a : SupAct) : SupervisorState :=
  match a with
  | SupAct.procExit st =>
    match s.procStatus with
    | none => { s with procStatus := some st }
    | some _ => s
  | SupAct.stdoutRead =>
    match s.stdoutBuf with
    | line :: rest =>
      { s with stdoutBuf := rest, events := s.events ++ [CommandEvent.Stdout line] }
    | [] =>
      match s.procStatus with
      | some _ => { s with stdoutEof := true }
      | none => s
  | SupAct.stderrRead =>
    match s.stderrBuf with
    | line :: rest =>
      { s with stderrBuf := rest, events := s.events ++ [CommandEvent.Stderr line] }
    | [] =>
      match s.procStatus with
      | some _ => { s with stderrEof := true }
      | none => s
  | SupAct.waitPoll =>
    if s.waitDone then s
    else
      match s.procStatus with
      | some (Except.ok payload) =>
        { s with waitDone := true, events := s.events ++ [CommandEvent.Terminated payload] }
      | some (Except.error e) =>
        { s with waitDone := true, events := s.events ++ [CommandEvent.Error e] }
      | none => s

/-- Run the supervisor ensemble under a scheduler action list. -/
def supRun (s : SupervisorState) (acts : List SupAct) : SupervisorState :=
  acts.foldl supStep s

/-- Event classifier: `Terminated` events. -/
def isTerminatedEvent : CommandEvent → Bool
  | CommandEvent.Terminated _ => true
  | _ => false

/-- Event classifier: `Error` events. -/
def isErrorEvent : CommandEvent → Bool
  | CommandEvent.Error _ => true
  | _ => false

/-- The property claimed of an event stream: exactly one `Terminated`
event and it is the final item (hence nothing is delivered after it). -/
def terminatedFinalOnce (evs : List CommandEvent) : Bool :=
  evs.countP isTerminatedEvent == 1 &&
    match evs.getLast? with
    | some (CommandEvent.Terminated _) => true
    | _ => false

/-- Invariant of the supervisor ensemble: before the supervising task
has fired, no terminal event exists; afterwards exactly one terminal
event exists, `Terminated` or `Error` according to the wait outcome. -/
def supInv (s : SupervisorState) : Prop :=
  (s.waitDone = false →
    s.events.countP isTerminatedEvent = 0 ∧ s.events.countP isErrorEvent = 0) ∧
  (s.waitDone = true →
    s.procStatus ≠ none ∧
    (∀ p, s.procStatus = some (Except.ok p) →
      s.events.countP isTerminatedEvent = 1 ∧ s.events.countP isErrorEvent = 0) ∧
    (∀ e, s.procStatus = some (Except.error e) →
      s.events.countP isTerminatedEvent = 0 ∧ s.events.countP isErrorEvent = 1))

/-! ## lib.rs: InitStep, the watch channel and the step subscriber

`initialize` creates `watch::channel(InitStep::ServerWaiting)`
(lib.rs:548) and stores the pristine receiver in `InitState`. Each
`await_initialization` call clones that receiver (a tokio
`watch::Receiver` clone keeps the seen version of the receiver it was
cloned from, here the initial version), immediately sends the value
read by `borrow()` (which does not mark the value seen), then loops on
`changed()`/`borrow_and_update()` forwarding each wakeup's latest
value and breaking after `Done` (lib.rs:121-136). -/

/-- lib.rs `InitStep`. -/
inductive InitStep where
  | ServerWaiting
  | SqliteWaiting
  | Done
deriving DecidableEq

/-- A tokio watch channel: current value and send version. -/
structure WatchChan where
  value : InitStep
  version : Nat
deriving DecidableEq

/-- `watch::channel(InitStep::ServerWaiting)` (lib.rs:548). -/
def watchChanInit : WatchChan := { value := InitStep.ServerWaiting, version := 0 }

/-- `watch::Sender::send`: replace the value and bump the version. -/
def watchSend (c : WatchChan) (v : InitStep) : WatchChan :=
  { value := v, version := c.version + 1 }

/-- A subscriber of `await_initialization`: its seen version, the
`InitStep` values it has pushed into its `Channel`, and whether its
forwarding loop has ended (after observing `Done`). -/
structure StepSubscriber where
  seen : Nat
  sent : List InitStep
  finished : Bool
deriving DecidableEq

/-- Joining subscriber: the clone of the pristine `InitState` receiver
has seen version 0; the current value is read with `borrow()` (seen
version unchanged) and sent immediately; then the loop starts. -/
def subJoin (c : WatchChan) : StepSubscriber :=
  { seen := 0, sent := [c.value], finished := false }

/-- One wakeup of the subscriber loop: `changed()` fires when the
channel version differs from the seen version; `borrow_and_update()`
marks it seen and yields the latest value, which is sent; the loop
breaks after sending `Done`. With no unseen version the loop stays
suspended. -/
def subPoll (c : WatchChan) (s : StepSubscriber) : StepSubscriber :=
  if s.finished then s
  else if s.seen = c.version then s
  else
    { seen := c.version, sent := s.sent ++ [c.value],
      finished := c.value = InitStep.Done }

/-- Interleaving actions for the step channel: a publisher send or a
subscriber wakeup. -/
inductive StepAct where
  | publish (v : InitStep)
  | poll
deriving DecidableEq

/-- Run channel and subscriber under an action list. -/
def stepRun (st : WatchChan × StepSubscriber) (acts : List StepAct) :
    WatchChan × StepSubscriber :=
  match acts with
  | [] => st
  | StepAct.publish v :: rest => stepRun (watchSend st.1 v, st.2) rest
  | StepAct.poll :: rest => stepRun (st.1, subPoll st.1 st.2) rest

/-- The channel after the published sequence ServerWaiting (initial),
SqliteWaiting, Done has completed. -/
def doneChan : WatchChan :=
  watchSend (watchSend watchChanInit InitStep.SqliteWaiting) InitStep.Done

/-! ## server.rs: config-derived server URL -/

/-- Model of `format!("http://{}:{}", hostname, port)` as used by
server.rs:220 and lib.rs:742 (a `u32` port displays in decimal). -/
def serverUrlFmt (hostname : String) (port : Nat) : String :=
  "http://" ++ hostname ++ ":" ++ Nat.repr port

/-- cli.rs `ServerConfig`: the optional `server` section of the parsed
CLI JSON config. The port is a `u32`. -/
structure ServerConfig where
  hostname : Option String
  port : Option Nat
deriving DecidableEq

/-- cli.rs `Config`. -/
structure Config where
  server : Option ServerConfig
deriving DecidableEq

/-- server.rs `normalize_hostname_for_url` (lines 193-208): wildcard
bind addresses become loopback connect targets, bare IPv6 addresses
get bracketed, anything else is returned as-is. -/
def normalize_hostname_for_url (hostname : String) : String :=
  if hostname = "0.0.0.0" then "127.0.0.1"
  else if hostname = "::" then "[::1]"
  else if strContainsChar hostname ':' && !(strStartsWithChar hostname '[') then
    "[" ++ hostname ++ "]"
  else hostname

/-- server.rs `get_server_url_from_config` (lines 210-221). -/
def get_server_url_from_config (config : Config) : Option String :=
  match config.server with
  | none => none
  | some server =>
    match server.port with
    | none => none
    | some port =>
      let hostname :=
        match server.hostname with
        | some v => normalize_hostname_for_url v
        | none => "127.0.0.1"
      some (serverUrlFmt hostname port)

/-! ## server.rs: `check_health`

The network side (reqwest URL parsing, client construction, joining the
health path, issuing the request) is an oracle environment; the control
flow of `check_health` (server.rs:148-179) over those fallible steps is
embedded exactly. -/

/-- The slice of `reqwest::Url` that `check_health` consults:
`host_str()`. -/
structure UrlModel where
  hostStr : Option String
deriving DecidableEq

/-- Oracle environment for `check_health`: outcomes of `Url::parse`,
`IpAddr` parsing (`some b` when the host parses as an IP address with
loopback flag `b`), `ClientBuilder::build` (its argument records
whether `no_proxy` was applied), `Url::join("/global/health")`, and
sending the GET request (the response HTTP status, `none` on a request
error). The request oracle receives the health URL and the optional
basic-auth password. -/
structure HealthEnv where
  parseUrl : String → Option UrlModel
  ipIsLoopback : String → Option Bool
  clientBuild : Bool → Option Unit
  joinHealth : UrlModel → Option UrlModel
  send : UrlModel → Option String → Option Nat

/-- server.rs `url_is_localhost` (lines 181-188). -/
def url_is_localhost (env : HealthEnv) (url : UrlModel) : Bool :=
  match url.hostStr with
  | none => false
  | some host =>
    eqIgnoreAsciiCase host "localhost" || env.ipIsLoopback host == some true

/-- server.rs `check_health` (lines 148-179): every fallible step short
circuits to `false`; on a response, success means a 2xx status. -/
def check_health (env : HealthEnv) (url : String) (password : Option String) : Bool :=
  match env.parseUrl url with
  | none => false
  | some u =>
    let noProxy := url_is_localhost env u
    match env.clientBuild noProxy with
    | none => false
    | some _ =>
      match env.joinHealth u with
      | none => false
      | some healthUrl =>
        match env.send healthUrl password with
        | none => false
        | some status => 200 ≤ status && status < 300

/-! ## lib.rs: server connection resolution and the initialization result

`setup_server_connection` (lib.rs:728-762) prefers a configured custom
server (verified by `check_health_or_ask_retry`), then an already
listening local server, and otherwise spawns a new local server with a
fresh uuid password via `spawn_local_server`. External interactions are
an oracle environment; the decision control flow is embedded exactly. -/

/-- lib.rs `ServerReadyData`. -/
structure ServerReadyData where
  url : String
  password : Option String
deriving DecidableEq

/-- lib.rs `ServerConnection`: reuse an existing server, or the spawned
CLI server carrying the process handle and the health-check task (the
`HealthCheck` join handle is an opaque token here). -/
inductive ServerConnection where
  | Existing (url : String)
  | CLI (url : String) (password : Option String) (child : CommandChild) (healthTask : Unit)
deriving DecidableEq

/-- Oracle environment for `setup_server_connection`: the saved custom
URL (`get_saved_server_url`), the eventual outcome of
`check_health_or_ask_retry` on it (true once a retry round finds it
healthy, false when the user chooses to start a local server), the
sidecar port (`get_sidecar_port`), the local health probe outcome
(`check_health(local_url, None)`), and the generated uuid password. -/
structure ResolverEnv where
  savedServerUrl : Option String
  customHealthyAfterRetries : Bool
  sidecarPort : Nat
  localHealthy : Bool
  freshPassword : String

/-- The local server URL `format!("http://{hostname}:{local_port}")`
with the fixed hostname `127.0.0.1` (lib.rs:740-742). -/
def localServerUrl (port : Nat) : String :=
  serverUrlFmt "127.0.0.1" port

/-- lib.rs `setup_server_connection` (lines 728-762). A spawned server's
`CommandChild` holds the fresh capacity-1 kill channel created by
`spawn_command`. -/
def setup_server_connection (env : ResolverEnv) : ServerConnection :=
  let viaLocal : ServerConnection :=
    let local_url := localServerUrl env.sidecarPort
    if env.localHealthy then ServerConnection.Existing local_url
    else
      ServerConnection.CLI local_url (some env.freshPassword)
        { killTx := killChannelNew } ()
  match env.savedServerUrl with
  | some url =>
    if env.customHealthyAfterRetries then ServerConnection.Existing url
    else viaLocal
  | none => viaLocal

/-! ## lib.rs: the spawned-server health check under timeout, and the
shared terminal result

In the `ServerConnection::CLI` branch, `initialize` awaits the health
check task under `timeout(Duration::from_secs(30), ...)`; on any error
outcome it calls `child.kill()` once and publishes a failure embedding
the recent log tail; on success it publishes `Ready` (lib.rs:602-639).
The single terminal value is sent once into a oneshot channel whose
receiver is wrapped in `Shared` and handed to every
`await_initialization` caller (lib.rs:553-555, 138-141). -/

/-- The fixed overall health-check timeout in seconds (lib.rs:613). -/
def healthCheckTimeoutSecs : Nat := 30

/-- Outcome of `timeout(30s, health_check.0).await`: the nested
`Result<Result<Result<(), String>, JoinError>, Elapsed>` collapsed to
its four cases. -/
inductive HealthCheckOutcome where
  | ready
  | failed (e : String)
  | taskFailed (e : String)
  | timedOut
deriving DecidableEq

/-- The error-message computation of the CLI health-check future
(lib.rs:614-619). -/
def cliHealthCheckErr : HealthCheckOutcome → Option String
  | HealthCheckOutcome.ready => none
  | HealthCheckOutcome.failed e => some e
  | HealthCheckOutcome.taskFailed e => some ("Health check task failed: " ++ e)
  | HealthCheckOutcome.timedOut => some "Health check timed out"

/-- Result of running the CLI health-check future: how many times
`child.kill()` was invoked, and the value sent to the shared terminal
result. -/
structure CliHealthCheckRun where
  killCalls : Nat
  result : Except String ServerReadyData
deriving DecidableEq

/-- The CLI health-check future body (lib.rs:612-639): on an error
outcome kill the child once and fail with the message embedding
`get_logs()`; on success publish `ServerReadyData`. -/
def runCliHealthCheck (out : HealthCheckOutcome) (logs url : String)
    (password : Option String) : CliHealthCheckRun :=
  match cliHealthCheckErr out with
  | some err =>
    { killCalls := 1,
      result := Except.error
        ("Failed to spawn OpenCode Server (" ++ err ++ "). Logs:\n" ++ logs) }
  | none => { killCalls := 0, result := Except.ok { url := url, password := password } }

/-- The value the loading task sends on `server_ready_tx`, together with
the number of `child.kill()` invocations on that path (lib.rs:602-648):
the `Existing` branch publishes `Ready` immediately with no password
and never kills; the `CLI` branch publishes the health-check future's
result. -/
def loadingTaskPublish (conn : ServerConnection) (out : HealthCheckOutcome)
    (logs : String) : CliHealthCheckRun :=
  match conn with
  | ServerConnection.Existing url =>
    { killCalls := 0, result := Except.ok { url := url, password := none } }
  | ServerConnection.CLI url password _ _ => runCliHealthCheck out logs url password

/-- A oneshot cell: `send` writes only when nothing was sent yet and
reports whether it won. -/
def oneshotSend (cell : Option α) (v : α) : Option α × Bool :=
  match cell with
  | none => (some v, true)
  | some w => (some w, false)

/-- The result part of `await_initialization` (lib.rs:138-141): await
the shared oneshot receiver; a dropped sender becomes the error string,
otherwise the memoized value is returned as-is. -/
def awaitInitResult (shared : Option (Except String ServerReadyData)) :
    Except String ServerReadyData :=
  match shared with
  | some r => r
  | none => Except.error "Failed to get server status"

/-- Trace of one app initialization with `numCallers` concurrent
`await_initialization` callers: how many times the loading task's
connection/health-check work ran, the memoized shared cell, and every
caller's observed result. `initialize` is spawned once (lib.rs:480) and
owns the single `server_ready_tx`; each caller only reads the shared
receiver, so the work count is independent of `numCallers`. -/
structure InitSystemTrace where
  workRuns : Nat
  shared : Option (Except String ServerReadyData)
  callerResults : List (Except String ServerReadyData)
deriving DecidableEq

/-- Run the initialization system: the loading task computes and sends
its value once; the callers each await the shared memoized cell. -/
def runInitSystem (conn : ServerConnection) (out : HealthCheckOutcome)
    (logs : String) (numCallers : Nat) : InitSystemTrace :=
  let v := (loadingTaskPublish conn out logs).result
  let cell := (oneshotSend (none : Option (Except String ServerReadyData)) v).1
  { workRuns := 1, shared := cell,
    callerResults := (List.range numCallers).map (fun _ => awaitInitResult cell) }

/-! ## Concrete scenarios used as counterexamples and witnesses -/

/-- A completed supervisor run in which the process exits while one
stdout line is still buffered in the pipe and the scheduler runs the
supervising task before the stdout reader: the `Terminated` event is
delivered before the last stdout line. All three tasks finish. -/
def supCexTrace : SupervisorState :=
  supRun (supStart [asciiBytes "hi"] [])
    [SupAct.procExit (Except.ok { code := some 0, signal := none }),
     SupAct.waitPoll, SupAct.stdoutRead, SupAct.stdoutRead, SupAct.stderrRead]

/-- A health-check oracle in which every fallible step fails. -/
def healthEnvAllFail : HealthEnv :=
  { parseUrl := fun _ => none
    ipIsLoopback := fun _ => none
    clientBuild := fun _ => none
    joinHealth := fun _ => none
    send := fun _ _ => none }

/-- A health-check oracle for a healthy loopback server: the URL parses
with host `127.0.0.1`, the client builds, the health path joins, and
the request answers status 200. -/
def healthEnvLocalOk : HealthEnv :=
  { parseUrl := fun _ => some { hostStr := some "127.0.0.1" }
    ipIsLoopback := fun h => if h = "127.0.0.1" then some true else none
    clientBuild := fun _ => some ()
    joinHealth := fun u => some u
    send := fun _ _ => some 200 }

/-! ## Theorems -/

/-- Claim C4: while the done flag is unset, the stream interceptor
suppresses the stdout line `sqlite-migration: 42` and emits exactly one
`InProgress 42` notification; it suppresses `sqlite-migration: done`,
emits exactly one `Done` notification and sets the done flag; with the
flag set every subsequent event — including the line
`sqlite-migration: 50` — is forwarded unmodified with no further
notifications. -/
theorem logs_middleware_migration_protocol :
    logsStep false (CommandEvent.Stdout (asciiBytes "sqlite-migration: 42")) =
      (false, none, [SqliteMigrationProgress.InProgress 42]) ∧
    logsStep false (CommandEvent.Stdout (asciiBytes "sqlite-migration: done")) =
      (true, none, [SqliteMigrationProgress.Done]) ∧
    (∀ e, logsStep true e = (true, some e, [])) ∧
    logsRun false
      [CommandEvent.Stdout (asciiBytes "sqlite-migration: 42"),
       CommandEvent.Stdout (asciiBytes "sqlite-migration: done"),
       CommandEvent.Stdout (asciiBytes "sqlite-migration: 50")] =
      (true, [CommandEvent.Stdout (asciiBytes "sqlite-migration: 50")],
       [SqliteMigrationProgress.InProgress 42, SqliteMigrationProgress.Done]) := by
  refine ⟨by decide, by decide, fun e => rfl, by decide⟩

/-- Helper for C5: a pass-through event is forwarded unchanged by one
interceptor step in the not-done state. -/
theorem logsStep_passes (e : CommandEvent) (h : passesThrough e = true) :
    logsStep false e = (false, some e, []) := by
  cases e with
  | Stdout bytes =>
    simp only [passesThrough] at h
    cases hd : utf8DecodeString bytes with
    | none => rw [hd] at h; simp at h
    | some s =>
      rw [hd] at h
      simp at h
      simp [logsStep, hd, h]
  | Stderr bytes => rfl
  | Error m => rfl
  | Terminated p => rfl

/-- Claim C5: before the migration-done flag is set, every non-stdout
event and every stdout line that does not begin with the reserved
`sqlite-migration:` tag (stdout lines are valid UTF-8, being produced
by the line readers from `String`s) is forwarded downstream unchanged
and in its original order, with no notifications emitted. -/
theorem logs_middleware_passthrough (evs : List CommandEvent)
    (h : ∀ e ∈ evs, passesThrough e = true) :
    logsRun false evs = (false, evs, []) := by
  induction evs with
  | nil => rfl
  | cons e rest ih =>
    have he := h e (by simp)
    have hr := ih (fun x hx => h x (by simp [hx]))
    simp [logsRun, logsStep_passes e he, hr]

/-- Witness for C5 at a concrete event list. -/
theorem logs_middleware_passthrough_witness :
    logsRun false
      [CommandEvent.Stdout (asciiBytes "server listening"),
       CommandEvent.Stderr (asciiBytes "some warning"),
       CommandEvent.Error "boom",
       CommandEvent.Terminated { code := some 0, signal := none }] =
      (false,
       [CommandEvent.Stdout (asciiBytes "server listening"),
        CommandEvent.Stderr (asciiBytes "some warning"),
        CommandEvent.Error "boom",
        CommandEvent.Terminated { code := some 0, signal := none }], []) :=
  logs_middleware_passthrough _ (by decide)

/-- Claim C9: `get_server_url_from_config` returns `none` whenever the
config has no `server` section or no `server.port`; with a port
present it returns `http://H:port` where `H` is the connection-
normalized hostname: missing hostname defaults to `127.0.0.1`, the
wildcard binds `0.0.0.0` and `::` map to `127.0.0.1` and `[::1]`, a
bare IPv6 address (containing `:`, not already bracketed) is wrapped in
brackets, and any other hostname is used as-is. -/
theorem get_server_url_from_config_cases (config : Config) :
    (config.server = none → get_server_url_from_config config = none) ∧
    (∀ sc, config.server = some sc → sc.port = none →
      get_server_url_from_config config = none) ∧
    (∀ sc p, config.server = some sc → sc.port = some p →
      (sc.hostname = none →
        get_server_url_from_config config = some (serverUrlFmt "127.0.0.1" p)) ∧
      (sc.hostname = some "0.0.0.0" →
        get_server_url_from_config config = some (serverUrlFmt "127.0.0.1" p)) ∧
      (sc.hostname = some "::" →
        get_server_url_from_config config = some (serverUrlFmt "[::1]" p)) ∧
      (∀ h, sc.hostname = some h → h ≠ "0.0.0.0" → h ≠ "::" →
        strContainsChar h ':' = true → strStartsWithChar h '[' = false →
        get_server_url_from_config config = some (serverUrlFmt ("[" ++ h ++ "]") p)) ∧
      (∀ h, sc.hostname = some h → h ≠ "0.0.0.0" → h ≠ "::" →
        (strContainsChar h ':' = false ∨ strStartsWithChar h '[' = true) →
        get_server_url_from_config config = some (serverUrlFmt h p))) := by
  refine ⟨fun hs => by simp [get_server_url_from_config, hs], ?_, ?_⟩
  · intro sc hs hp
    simp [get_server_url_from_config, hs, hp]
  · intro sc p hs hp
    refine ⟨?_, ?_, ?_, ?_, ?_⟩
    · intro hh; simp [get_server_url_from_config, hs, hp, hh]
    · intro hh; simp [get_server_url_from_config, hs, hp, hh, normalize_hostname_for_url]
    · intro hh; simp [get_server_url_from_config, hs, hp, hh, normalize_hostname_for_url]
    · intro h hh h0 h4 hc hb
      simp [get_server_url_from_config, hs, hp, hh, normalize_hostname_for_url, h0, h4, hc, hb]
    · intro h hh h0 h4 hcb
      rcases hcb with hc | hb
      · simp [get_server_url_from_config, hs, hp, hh, normalize_hostname_for_url, h0, h4, hc]
      · simp [get_server_url_from_config, hs, hp, hh, normalize_hostname_for_url, h0, h4, hb]

/-- Witness for C9 at concrete configs covering the normalization
cases. -/
theorem get_server_url_from_config_cases_witness :
    get_server_url_from_config { server := none } = none ∧
    get_server_url_from_config
      { server := some { hostname := some "localhost", port := none } } = none ∧
    get_server_url_from_config
      { server := some { hostname := none, port := some 4096 } } =
      some (serverUrlFmt "127.0.0.1" 4096) ∧
    get_server_url_from_config
      { server := some { hostname := some "0.0.0.0", port := some 80 } } =
      some (serverUrlFmt "127.0.0.1" 80) ∧
    get_server_url_from_config
      { server := some { hostname := some "::", port := some 80 } } =
      some (serverUrlFmt "[::1]" 80) ∧
    get_server_url_from_config
      { server := some { hostname := some "fe80::1", port := some 80 } } =
      some (serverUrlFmt ("[" ++ "fe80::1" ++ "]") 80) ∧
    get_server_url_from_config
      { server := some { hostname := some "example.com", port := some 80 } } =
      some (serverUrlFmt "example.com" 80) := by
  refine ⟨(get_server_url_from_config_cases _).1 rfl,
    (get_server_url_from_config_cases _).2.1 _ rfl rfl,
    ((get_server_url_from_config_cases _).2.2 _ 4096 rfl rfl).1 rfl,
    ((get_server_url_from_config_cases _).2.2 _ 80 rfl rfl).2.1 rfl,
    ((get_server_url_from_config_cases _).2.2 _ 80 rfl rfl).2.2.1 rfl,
    ((get_server_url_from_config_cases _).2.2 _ 80 rfl rfl).2.2.2.1 _ rfl
      (by decide) (by decide) (by decide) (by decide),
    ((get_server_url_from_config_cases _).2.2 _ 80 rfl rfl).2.2.2.2 _ rfl
      (by decide) (by decide) (Or.inl (by decide))⟩

/-- Claim C10: `check_health` is total at its public interface: when the
input string does not parse as a URL, when client construction fails,
when joining the health path fails, or when the request itself fails,
it returns `false` rather than propagating an error; on a response it
returns whether the status is 2xx. -/
theorem check_health_total (env : HealthEnv) (url : String) (password : Option String) :
    (env.parseUrl url = none → check_health env url password = false) ∧
    (∀ u, env.parseUrl url = some u →
      env.clientBuild (url_is_localhost env u) = none →
      check_health env url password = false) ∧
    (∀ u cl, env.parseUrl url = some u →
      env.clientBuild (url_is_localhost env u) = some cl →
      env.joinHealth u = none → check_health env url password = false) ∧
    (∀ u cl hu, env.parseUrl url = some u →
      env.clientBuild (url_is_localhost env u) = some cl →
      env.joinHealth u = some hu → env.send hu password = none →
      check_health env url password = false) ∧
    (∀ u cl hu status, env.parseUrl url = some u →
      env.clientBuild (url_is_localhost env u) = some cl →
      env.joinHealth u = some hu → env.send hu password = some status →
      check_health env url password = (200 ≤ status && status < 300)) := by
  refine ⟨fun hp => by simp [check_health, hp], ?_, ?_, ?_, ?_⟩
  · intro u hp hb; simp [check_health, hp, hb]
  · intro u cl hp hb hj; simp [check_health, hp, hb, hj]
  · intro u cl hu hp hb hj hs; simp [check_health, hp, hb, hj, hs]
  · intro u cl hu status hp hb hj hs; simp [check_health, hp, hb, hj, hs]

/-- Witness for C10: the all-failing oracle yields `false` on every
step, and a healthy loopback oracle yields `true`. -/
theorem check_health_total_witness :
    check_health healthEnvAllFail "not a url" none = false ∧
    check_health healthEnvLocalOk "http://127.0.0.1:4096" (some "pw") = true := by
  constructor
  · exact (check_health_total healthEnvAllFail "not a url" none).1 rfl
  · exact (check_health_total healthEnvLocalOk "http://127.0.0.1:4096"
      (some "pw")).2.2.2.2 { hostStr := some "127.0.0.1" } () { hostStr := some "127.0.0.1" }
      200 rfl (by decide) rfl rfl

/-- Claim C8: the server connection resolver decides in fixed
preference order: a configured custom server URL that is verified
healthy yields `Existing` with that URL; otherwise a local server
already answering the health check on the expected port yields
`Existing` with the local URL; otherwise a new local server is spawned
with the freshly generated random password and the result is the
spawned (`CLI`) variant carrying that URL, the password, the process
handle with its fresh kill channel, and the health-check task. -/
theorem setup_server_connection_preference (env : ResolverEnv) :
    (∀ url, env.savedServerUrl = some url → env.customHealthyAfterRetries = true →
      setup_server_connection env = ServerConnection.Existing url) ∧
    ((env.savedServerUrl = none ∨ env.customHealthyAfterRetries = false) →
      env.localHealthy = true →
      setup_server_connection env =
        ServerConnection.Existing (localServerUrl env.sidecarPort)) ∧
    ((env.savedServerUrl = none ∨ env.customHealthyAfterRetries = false) →
      env.localHealthy = false →
      setup_server_connection env =
        ServerConnection.CLI (localServerUrl env.sidecarPort) (some env.freshPassword)
          { killTx := killChannelNew } ()) := by
  refine ⟨?_, ?_, ?_⟩
  · intro url hu hc
    simp [setup_server_connection, hu, hc]
  · intro hnc hl
    rcases hnc with hn | hc
    · simp [setup_server_connection, hn, hl]
    · cases hu : env.savedServerUrl with
      | none => simp [setup_server_connection, hu, hl]
      | some url => simp [setup_server_connection, hu, hc, hl]
  · intro hnc hl
    rcases hnc with hn | hc
    · simp [setup_server_connection, hn, hl]
    · cases hu : env.savedServerUrl with
      | none => simp [setup_server_connection, hu, hl]
      | some url => simp [setup_server_connection, hu, hc, hl]

/-- Witness for C8 at three concrete environments, one per decision
branch. -/
theorem setup_server_connection_preference_witness :
    setup_server_connection
      { savedServerUrl := some "http://srv.example:9", customHealthyAfterRetries := true,
        sidecarPort := 4096, localHealthy := false, freshPassword := "uuid-1" } =
      ServerConnection.Existing "http://srv.example:9" ∧
    setup_server_connection
      { savedServerUrl := none, customHealthyAfterRetries := false,
        sidecarPort := 4096, localHealthy := true, freshPassword := "uuid-1" } =
      ServerConnection.Existing (localServerUrl 4096) ∧
    setup_server_connection
      { savedServerUrl := some "http://srv.example:9", customHealthyAfterRetries := false,
        sidecarPort := 4096, localHealthy := false, freshPassword := "uuid-1" } =
      ServerConnection.CLI (localServerUrl 4096) (some "uuid-1")
        { killTx := killChannelNew } () :=
  ⟨(setup_server_connection_preference _).1 _ rfl rfl,
   (setup_server_connection_preference _).2.1 (Or.inl rfl) rfl,
   (setup_server_connection_preference _).2.2 (Or.inr rfl) rfl⟩

/-- Claim C7: when a local server was spawned and its health check does
not succeed within the fixed 30-second timeout, the orchestrator
invokes the child's kill path exactly once and the terminal result is a
failure whose message contains the marker "timed out" and the recent
process log tail. -/
theorem health_check_timeout_kills_once (conn : ServerConnection)
    (url : String) (password : Option String) (child : CommandChild)
    (out : HealthCheckOutcome) (logs : String)
    (hconn : conn = ServerConnection.CLI url password child ())
    (hout : out = HealthCheckOutcome.timedOut) :
    healthCheckTimeoutSecs = 30 ∧
    (loadingTaskPublish conn out logs).killCalls = 1 ∧
    (loadingTaskPublish conn out logs).result =
      Except.error
        ("Failed to spawn OpenCode Server (Health check timed out). Logs:\n" ++ logs) ∧
    (∀ s, (loadingTaskPublish conn out logs).result = Except.error s →
      ("timed out".data <:+: s.data) ∧ (logs.data <:+: s.data)) := by
  subst hconn; subst hout
  refine ⟨rfl, rfl, rfl, ?_⟩
  intro s hs
  have hmsg : s =
      "Failed to spawn OpenCode Server (Health check timed out). Logs:\n" ++ logs := by
    simpa [loadingTaskPublish, runCliHealthCheck, cliHealthCheckErr] using hs.symm
  subst hmsg
  constructor
  · have h1 : "timed out".data <:+:
        ("Failed to spawn OpenCode Server (Health check timed out). Logs:\n").data := by
      decide
    have h2 : ("Failed to spawn OpenCode Server (Health check timed out). Logs:\n").data <:+:
        ("Failed to spawn OpenCode Server (Health check timed out). Logs:\n" ++ logs).data := by
      exact ⟨[], logs.data, by simp [String.data_append]⟩
    exact h1.trans h2
  · exact ⟨("Failed to spawn OpenCode Server (Health check timed out). Logs:\n").data, [],
      by simp [String.data_append]⟩

/-- Witness for C7 at a concrete spawned connection, log tail and
timeout outcome. -/
theorem health_check_timeout_kills_once_witness :
    (loadingTaskPublish
      (ServerConnection.CLI (localServerUrl 4096) (some "uuid-1")
        { killTx := killChannelNew } ())
      HealthCheckOutcome.timedOut "recent log tail").killCalls = 1 :=
  (health_check_timeout_kills_once _ _ _ _ _ "recent log tail" rfl rfl).2.1

/-- Claim C1: the terminal server-ready result is computed at most once
regardless of how many callers await initialization concurrently: the
loading task's connection/health-check work runs exactly once
(independent of the caller count) and every one of the `n` callers
observes the identical memoized `Result` from the shared oneshot
receiver. -/
theorem await_init_memoized (conn : ServerConnection) (out : HealthCheckOutcome)
    (logs : String) (n : Nat) :
    (runInitSystem conn out logs n).workRuns = 1 ∧
    (runInitSystem conn out logs n).callerResults =
      List.replicate n (loadingTaskPublish conn out logs).result ∧
    (runInitSystem conn out logs n).callerResults.length = n := by
  refine ⟨rfl, ?_, ?_⟩
  · simp [runInitSystem, oneshotSend, awaitInitResult]
  · simp [runInitSystem]

/-- Helper for C2: the supervisor invariant holds initially. -/
theorem supInv_start (o e : List (List Nat)) : supInv (supStart o e) := by
  constructor
  · intro _; simp [supStart]
  · intro h; simp [supStart] at h

/-- Helper for C2: the supervisor invariant is preserved by every
scheduler step. -/
theorem supInv_step (s : SupervisorState) (a : SupAct) (h : supInv s) :
    supInv (supStep s a) := by
  obtain ⟨h1, h2⟩ := h
  cases a with
  | procExit st =>
    cases hs : s.procStatus with
    | none =>
      cases hw : s.waitDone with
      | false =>
        refine ⟨fun _ => by simpa [supStep, hs] using h1 hw, fun hw2 => ?_⟩
        simp [supStep, hs] at hw2
        rw [hw] at hw2; exact absurd hw2 (by simp)
      | true => exact absurd hs (h2 hw).1
    | some st0 => simpa [supStep, hs] using ⟨h1, h2⟩
  | stdoutRead =>
    cases hb : s.stdoutBuf with
    | cons line rest =>
      constructor
      · intro hw
        have := h1 (by simpa [supStep, hb] using hw)
        simp [supStep, hb, List.countP_append, isTerminatedEvent, isErrorEvent, this]
      · intro hw
        have := h2 (by simpa [supStep, hb] using hw)
        refine ⟨by simpa [supStep, hb] using this.1, ?_, ?_⟩
        · intro p hp
          have hc := this.2.1 p (by simpa [supStep, hb] using hp)
          simp [supStep, hb, List.countP_append, isTerminatedEvent, isErrorEvent, hc]
        · intro e he
          have hc := this.2.2 e (by simpa [supStep, hb] using he)
          simp [supStep, hb, List.countP_append, isTerminatedEvent, isErrorEvent, hc]
    | nil =>
      cases hs : s.procStatus with
      | none => simpa [supStep, hb, hs] using ⟨h1, h2⟩
      | some st0 =>
        have hstep : supStep s SupAct.stdoutRead = { s with stdoutEof := true } := by
          simp [supStep, hb, hs]
        rw [hstep]
        exact ⟨h1, h2⟩
  | stderrRead =>
    cases hb : s.stderrBuf with
    | cons line rest =>
      constructor
      · intro hw
        have := h1 (by simpa [supStep, hb] using hw)
        simp [supStep, hb, List.countP_append, isTerminatedEvent, isErrorEvent, this]
      · intro hw
        have := h2 (by simpa [supStep, hb] using hw)
        refine ⟨by simpa [supStep, hb] using this.1, ?_, ?_⟩
        · intro p hp
          have hc := this.2.1 p (by simpa [supStep, hb] using hp)
          simp [supStep, hb, List.countP_append, isTerminatedEvent, isErrorEvent, hc]
        · intro e he
          have hc := this.2.2 e (by simpa [supStep, hb] using he)
          simp [supStep, hb, List.countP_append, isTerminatedEvent, isErrorEvent, hc]
    | nil =>
      cases hs : s.procStatus with
      | none => simpa [supStep, hb, hs] using ⟨h1, h2⟩
      | some st0 =>
        have hstep : supStep s SupAct.stderrRead = { s with stderrEof := true } := by
          simp [supStep, hb, hs]
        rw [hstep]
        exact ⟨h1, h2⟩
  | waitPoll =>
    cases hw : s.waitDone with
    | true => simpa [supStep, hw] using ⟨h1, h2⟩
    | false =>
      have hz := h1 hw
      cases hs : s.procStatus with
      | none => simpa [supStep, hw, hs] using ⟨h1, h2⟩
      | some st0 =>
        cases st0 with
        | ok payload =>
          constructor
          · intro hcontra
            simp [supStep, hw, hs] at hcontra
          · intro _
            refine ⟨by simp [supStep, hw, hs], ?_, ?_⟩
            · intro p hp
              simp [supStep, hw, hs] at hp
              simp [supStep, hw, hs, List.countP_append, isTerminatedEvent, isErrorEvent,
                hz.1, hz.2]
            · intro e he
              simp [supStep, hw, hs] at he
        | error err =>
          constructor
          · intro hcontra
            simp [supStep, hw, hs] at hcontra
          · intro _
            refine ⟨by simp [supStep, hw, hs], ?_, ?_⟩
            · intro p hp
              simp [supStep, hw, hs] at hp
            · intro e he
              simp [supStep, hw, hs] at he
              simp [supStep, hw, hs, List.countP_append, isTerminatedEvent, isErrorEvent,
                hz.1, hz.2]

/-- Helper for C2: the supervisor invariant holds after any run. -/
theorem supInv_run (s : SupervisorState) (acts : List SupAct) (h : supInv s) :
    supInv (supRun s acts) := by
  induction acts generalizing s with
  | nil => exact h
  | cons a rest ih => exact ih _ (supInv_step s a h)

/-- Claim C2 counterexample: the concrete completed run `supCexTrace`
(process exits with a stdout line still buffered; the supervising task
is scheduled before the reader drains the pipe) emits `Terminated`
followed by a `Stdout` event, so the stream's `Terminated` event is
not its final item. -/
theorem terminated_not_always_final :
    supCexTrace.events =
      [CommandEvent.Terminated { code := some 0, signal := none },
       CommandEvent.Stdout (asciiBytes "hi")] ∧
    supCexTrace.stdoutEof = true ∧ supCexTrace.stderrEof = true ∧
    supCexTrace.waitDone = true ∧
    terminatedFinalOnce supCexTrace.events = false := by
  decide

/-- Claim C2 (amended): every run of the spawned process's task
ensemble delivers at most one `Terminated` event, and exactly one once
the supervising task has completed with a successful wait outcome; but
stdout/stderr lines still buffered in the pipes may be delivered after
it, so `Terminated` is not necessarily the stream's final item. -/
theorem terminated_emitted_at_most_once (o e : List (List Nat)) (acts : List SupAct) :
    (supRun (supStart o e) acts).events.countP isTerminatedEvent ≤ 1 ∧
    (∀ p, (supRun (supStart o e) acts).waitDone = true →
      (supRun (supStart o e) acts).procStatus = some (Except.ok p) →
      (supRun (supStart o e) acts).events.countP isTerminatedEvent = 1) := by
  obtain ⟨h1, h2⟩ := supInv_run _ acts (supInv_start o e)
  constructor
  · cases hw : (supRun (supStart o e) acts).waitDone with
    | false => simp [(h1 hw).1]
    | true =>
      obtain ⟨hne, hok, herr⟩ := h2 hw
      cases hs : (supRun (supStart o e) acts).procStatus with
      | none => exact absurd hs hne
      | some st0 =>
        cases st0 with
        | ok p => simp [(hok p hs).1]
        | error err => simp [(herr err hs).1]
  · intro p hw hp
    exact ((h2 hw).2.1 p hp).1

/-- Witness for C2 (amended) at a concrete clean run. -/
theorem terminated_emitted_at_most_once_witness :
    (supRun (supStart [] [])
      [SupAct.procExit (Except.ok { code := some 0, signal := none }),
       SupAct.waitPoll]).events.countP isTerminatedEvent = 1 :=
  (terminated_emitted_at_most_once [] [] _).2 { code := some 0, signal := none }
    (by decide) (by decide)

/-- Claim C3 counterexample: with a kill already pending on the
capacity-1 channel, a second `CommandChild::kill` call returns an
error (tokio's `TrySendError::Full` mapped into an `io::Error`), not
success. -/
theorem kill_when_full_errors :
    ((CommandChild.kill { killTx := killChannelNew }).1.kill).2 =
      Except.error "no available capacity" ∧
    ((CommandChild.kill { killTx := killChannelNew }).1.kill).2 ≠ Except.ok () := by
  decide

/-- Helper for C3: kill-channel operations preserve the buffer bound
and never change the capacity. -/
theorem killOpsRun_bounds (ops : List KillOp) (c : KillChannel)
    (h : c.pending ≤ c.capacity) :
    (killOpsRun c ops).pending ≤ (killOpsRun c ops).capacity ∧
    (killOpsRun c ops).capacity = c.capacity := by
  induction ops generalizing c with
  | nil => exact ⟨h, rfl⟩
  | cons op rest ih =>
    have hstep : (killOpApply c op).pending ≤ (killOpApply c op).capacity ∧
        (killOpApply c op).capacity = c.capacity := by
      cases op with
      | request =>
        simp only [killOpApply, trySendKill]
        by_cases hc : c.closed
        · simp [hc, h]
        · by_cases hp : c.pending < c.capacity
          · simp [hc, hp]; omega
          · simp [hc, hp, h]
      | receive =>
        simp only [killOpApply]
        by_cases hp : 0 < c.pending
        · simp [hp]; omega
        · simp [hp, h]
    have := ih (killOpApply c op) hstep.1
    exact ⟨this.1, this.2.trans hstep.2⟩

/-- Claim C3 (amended): `CommandChild::kill` enqueues at most one
pending kill request (the channel has capacity 1, and no operation
sequence pushes its occupancy above 1); a kill on the empty open
channel reports success, but when a kill is already pending a further
`kill()` call returns an error (`TrySendError::Full` mapped to an
`io::Error`) rather than `Ok` — callers discard the result, so the
effect is idempotent. -/
theorem kill_enqueues_at_most_one (ops : List KillOp) (c : CommandChild)
    (hcl : c.killTx.closed = false) (hcap : c.killTx.capacity = 1) :
    (killOpsRun killChannelNew ops).pending ≤ 1 ∧
    (c.killTx.pending = 0 → (c.kill).2 = Except.ok ()) ∧
    (c.killTx.pending = 1 →
      (c.kill).2 = Except.error "no available capacity") := by
  refine ⟨?_, ?_, ?_⟩
  · have := killOpsRun_bounds ops killChannelNew (by simp [killChannelNew])
    have hcap0 : (killOpsRun killChannelNew ops).capacity = 1 := by
      simpa [killChannelNew] using this.2
    omega
  · intro hp
    simp [CommandChild.kill, trySendKill, hcl, hp, hcap]
  · intro hp
    simp [CommandChild.kill, trySendKill, hcl, hp, hcap]

/-- Witness for C3 (amended): a double kill then a receive on the fresh
channel. -/
theorem kill_enqueues_at_most_one_witness :
    (killOpsRun killChannelNew [KillOp.request, KillOp.request, KillOp.receive]).pending ≤ 1 ∧
    (CommandChild.kill { killTx := killChannelNew }).2 = Except.ok () :=
  ⟨(kill_enqueues_at_most_one [KillOp.request, KillOp.request, KillOp.receive]
      { killTx := killChannelNew } rfl rfl).1,
   (kill_enqueues_at_most_one [] { killTx := killChannelNew } rfl rfl).2.1 rfl⟩

/-- Claim C6 counterexample: a subscriber joining after the published
sequence ServerWaiting, SqliteWaiting, Done has completed receives
`Done` twice — once from the immediate send of the current value read
by `borrow()`, and once more because its cloned receiver still carries
the initial seen version so `changed()` fires immediately — not `Done`
and nothing else. -/
theorem late_subscriber_sees_done_twice :
    (stepRun (doneChan, subJoin doneChan) [StepAct.poll, StepAct.poll]).2.sent =
      [InitStep.Done, InitStep.Done] ∧
    (stepRun (doneChan, subJoin doneChan) [StepAct.poll, StepAct.poll]).2.sent ≠
      [InitStep.Done] ∧
    (stepRun (doneChan, subJoin doneChan) [StepAct.poll, StepAct.poll]).2.finished = true := by
  decide

/-- Claim C6 (amended): a subscriber joining at any point immediately
sends the current step; once its forwarding loop has observed `Done`
it sends nothing further under any continuation; and a subscriber
joining after ServerWaiting, SqliteWaiting, Done have been published
receives exactly `Done, Done` (the current step is re-delivered once
by the catch-up wakeup) and terminates. -/
theorem step_subscriber_behaviour (st : WatchChan × StepSubscriber)
    (acts : List StepAct) (hfin : st.2.finished = true) :
    (∀ c : WatchChan, (subJoin c).sent = [c.value]) ∧
    (stepRun st acts).2 = st.2 ∧
    (stepRun (doneChan, subJoin doneChan)
      [StepAct.poll, StepAct.poll, StepAct.poll]).2.sent =
      [InitStep.Done, InitStep.Done] ∧
    (stepRun (doneChan, subJoin doneChan)
      [StepAct.poll, StepAct.poll, StepAct.poll]).2.finished = true := by
  refine ⟨fun c => rfl, ?_, by decide, by decide⟩
  induction acts generalizing st with
  | nil => rfl
  | cons a rest ih =>
    cases a with
    | publish v => exact ih (watchSend st.1 v, st.2) hfin
    | poll =>
      have hp : subPoll st.1 st.2 = st.2 := by simp [subPoll, hfin]
      have := ih (st.1, subPoll st.1 st.2) (by simp [hp, hfin])
      simpa [stepRun, hp] using this

/-- Witness for C6 (amended): a finished subscriber stays silent under
further publishes and polls. -/
theorem step_subscriber_behaviour_witness :
    (stepRun (doneChan, { seen := 3, sent := [InitStep.Done, InitStep.Done], finished := true })
      [StepAct.publish InitStep.SqliteWaiting, StepAct.poll, StepAct.poll]).2 =
      { seen := 3, sent := [InitStep.Done, InitStep.Done], finished := true } :=
  (step_subscriber_behaviour
    (doneChan, { seen := 3, sent := [InitStep.Done, InitStep.Done], finished := true })
    [StepAct.publish InitStep.SqliteWaiting, StepAct.poll, StepAct.poll] rfl).2.1

end Opencode
